import Mathlib

/-!
Verification development for the electricitymap extraction parsers
(src/parsers/CA_AB.py and src/server/parsers/SE.py).

The Python source is shallowly embedded: each extraction function becomes a
Lean function from an explicit payload value (the already-fetched table or
JSON feed contents) to an `Option`/`Except` result; Python exceptions become
`none`/`error`.  Numeric cell values are represented as exact decimals
(`Dec`, the value `num / 10 ^ scale`): every cell these parsers handle is a
plain decimal string, and the only arithmetic performed on parsed values is
one addition of two same-shaped decimals, so the embedding is exact where
IEEE doubles would merely round deterministically.  Datetimes become
wall-clock instants: seconds since the Unix epoch of the naive local time,
paired with the attached timezone name, mirroring `pytz.localize` and arrow
`replace(tzinfo=...)`, which attach a zone without shifting the clock.
-/

/-- Non-breaking space character, `u'\xa0'` in SE.py. -/
def nbsp : Char := '\u00A0'

/-- Whitespace accepted around a number by Python `float(str)` / `int(str)`. -/
def isWsC (c : Char) : Bool :=
  c == ' ' || c == '\t' || c == '\n' || c == '\r' || c == '\x0b' || c == '\x0c' || c == nbsp

/-- Strips leading and trailing whitespace, as Python number conversion does. -/
def trimWs (cs : List Char) : List Char :=
  ((cs.dropWhile isWsC).reverse.dropWhile isWsC).reverse

/-- Numeric value of a decimal digit character. -/
def digitVal (c : Char) : Nat := c.toNat - 48

/-- Value of a string of decimal digits. -/
def digitsToNat (cs : List Char) : Nat := cs.foldl (fun a c => 10 * a + digitVal c) 0

/-- Exact decimal number representing the value `num / 10 ^ scale`.  This
stands in for the IEEE doubles of the Python source; all values the parsers
produce are exact decimals, so equalities between them hold in `Dec` exactly
when they hold between the corresponding doubles. -/
structure Dec where
  num : Int
  scale : Nat
deriving DecidableEq, Repr

/-- Addition of two exact decimals (aligning to the larger scale), the `+` of
`production.other` in SE.py. -/
def Dec.add (a b : Dec) : Dec :=
  let s := max a.scale b.scale
  ⟨a.num * (10 : Int) ^ (s - a.scale) + b.num * (10 : Int) ^ (s - b.scale), s⟩

/-- Builds the decimal value of a parsed float literal from its sign, integer
digits, fraction digits and decimal exponent. -/
def Dec.ofParts (sgn : Int) (ip fp : List Char) (e : Int) : Dec :=
  let n : Int := sgn * (digitsToNat (ip ++ fp) : Int)
  if 0 ≤ e then ⟨n * (10 : Int) ^ e.toNat, fp.length⟩
  else ⟨n, fp.length + e.natAbs⟩

/-- Mantissa of a Python float literal, `digits [. digits]` or `. digits`:
returns its integer digits, fraction digits and the unconsumed rest. -/
def parseMantissa (cs : List Char) : Option (List Char × List Char × List Char) :=
  let (ip, r1) := cs.span Char.isDigit
  match r1 with
  | '.' :: r2 =>
    let (fp, r3) := r2.span Char.isDigit
    if ip.isEmpty && fp.isEmpty then none else some (ip, fp, r3)
  | _ => if ip.isEmpty then none else some (ip, [], r1)

/-- Optional exponent part of a Python float literal (must consume the whole rest). -/
def parseExpTail (cs : List Char) : Option Int :=
  match cs with
  | [] => some 0
  | 'e' :: r | 'E' :: r =>
    let (sgn, body) : Int × List Char :=
      match r with
      | '+' :: r2 => (1, r2)
      | '-' :: r2 => (-1, r2)
      | r2 => (1, r2)
    if body.isEmpty || !body.all Char.isDigit then none
    else some (sgn * (digitsToNat body : Int))
  | _ => none

/-- Model of Python `float(str)` as used by `isfloat`/`float` in CA_AB.py and
the `float(...)` coercions in SE.py: surrounding whitespace, an optional sign,
a decimal mantissa and an optional exponent.  The exact decimal value is
returned; `none` models the `ValueError` raised on anything else.  (The
`inf`/`nan` spellings Python also accepts never occur in grid telemetry cells
and are not modelled.) -/
def pyFloatChars (cs : List Char) : Option Dec :=
  let cs := trimWs cs
  let (sgn, body) : Int × List Char :=
    match cs with
    | '+' :: r => (1, r)
    | '-' :: r => (-1, r)
    | r => (1, r)
  match parseMantissa body with
  | none => none
  | some (ip, fp, rest) =>
    match parseExpTail rest with
    | none => none
    | some e => some (Dec.ofParts sgn ip fp e)

/-- Python `float(str)` on a string value. -/
def pyFloat (s : String) : Option Dec := pyFloatChars s.data

/-- Model of Python `int(str)`: surrounding whitespace, optional sign, digits. -/
def pyIntChars (cs : List Char) : Option Int :=
  let cs := trimWs cs
  let (sgn, body) : Int × List Char :=
    match cs with
    | '+' :: r => (1, r)
    | '-' :: r => (-1, r)
    | r => (1, r)
  if body.isEmpty || !body.all Char.isDigit then none
  else some (sgn * (digitsToNat body : Int))

/-- Embedding of the numeric normalization chain of SE.py (inlined there as
`float(x.replace(u'\xa0', '').replace(' ', '').replace('-', '0'))`): remove
every non-breaking space, remove every plain space, replace every hyphen by
the digit zero, then convert with Python `float`.  The spec names this
`normalize_number`. -/
def normalize_number (s : String) : Option Dec :=
  pyFloatChars
    (((s.data.filter (fun c => c != nbsp)).filter (fun c => c != ' ')).map
      (fun c => if c = '-' then '0' else c))

/-- Lexicographic comparison of character lists by code point, the order
Python uses on `str` (in `sorted(data.keys())` and `sorted([code1, code2])`).
Mathlib's `String` order is extensionally the same but does not reduce in the
kernel, so the comparison is spelled out here. -/
def charListLe : List Char → List Char → Bool
  | [], _ => true
  | _ :: _, [] => false
  | a :: as, b :: bs =>
    if a.toNat = b.toNat then charListLe as bs else decide (a.toNat < b.toNat)

/-- Python `s <= t` on strings. -/
def pyStrLe (s t : String) : Bool := charListLe s.data t.data

/-- Python string order as a proposition, for use with `List.insertionSort`. -/
def strLe (s t : String) : Prop := pyStrLe s t = true

instance : DecidableRel strLe := fun s t => inferInstanceAs (Decidable (pyStrLe s t = true))

theorem charListLe_total : ∀ as bs : List Char, charListLe as bs = true ∨ charListLe bs as = true := by
  intro as
  induction as with
  | nil => intro bs; left; rfl
  | cons a as ih =>
    intro bs
    cases bs with
    | nil => right; rfl
    | cons b bs =>
      by_cases h : a.toNat = b.toNat
      · rcases ih bs with h1 | h1
        · left; simp [charListLe, h, h1]
        · right; simp [charListLe, h.symm, h1]
      · rcases Nat.lt_or_ge a.toNat b.toNat with hlt | hge
        · left; simp [charListLe, h, hlt]
        · right
          have hba : b.toNat ≠ a.toNat := fun e => h e.symm
          have : b.toNat < a.toNat := lt_of_le_of_ne hge hba
          simp [charListLe, hba, this]

theorem charListLe_trans : ∀ as bs cs : List Char,
    charListLe as bs = true → charListLe bs cs = true → charListLe as cs = true := by
  intro as
  induction as with
  | nil => intro bs cs _ _; rfl
  | cons a as ih =>
    intro bs cs h1 h2
    cases bs with
    | nil => simp [charListLe] at h1
    | cons b bs =>
      cases cs with
      | nil => simp [charListLe] at h2
      | cons c cs =>
        by_cases hab : a.toNat = b.toNat <;> by_cases hbc : b.toNat = c.toNat
        · have hac : a.toNat = c.toNat := hab.trans hbc
          simp only [charListLe, if_pos hab] at h1
          simp only [charListLe, if_pos hbc] at h2
          simp only [charListLe, if_pos hac]
          exact ih bs cs h1 h2
        · simp only [charListLe, if_pos hab] at h1
          simp only [charListLe, if_neg hbc] at h2
          have hac : a.toNat ≠ c.toNat := by rw [hab]; exact hbc
          simp only [charListLe, if_neg hac]
          simp only [decide_eq_true_eq] at h2 ⊢
          omega
        · simp only [charListLe, if_neg hab] at h1
          simp only [charListLe, if_pos hbc] at h2
          have hac : a.toNat ≠ c.toNat := by rw [← hbc]; exact hab
          simp only [charListLe, if_neg hac]
          simp only [decide_eq_true_eq] at h1 ⊢
          omega
        · simp only [charListLe, if_neg hab] at h1
          simp only [charListLe, if_neg hbc] at h2
          simp only [decide_eq_true_eq] at h1 h2
          have hac : a.toNat ≠ c.toNat := by omega
          simp only [charListLe, if_neg hac, decide_eq_true_eq]
          omega

instance : IsTotal String strLe :=
  ⟨fun s t => by
    rcases charListLe_total s.data t.data with h | h
    · exact Or.inl h
    · exact Or.inr h⟩

instance : IsTrans String strLe :=
  ⟨fun s t u h1 h2 => charListLe_trans s.data t.data u.data h1 h2⟩

/-- Calendar date, as parsed from the source's date strings. -/
structure Date where
  month : Nat
  day : Nat
  year : Nat
deriving DecidableEq, Repr

/-- Gregorian leap-year rule. -/
def isLeap (y : Nat) : Bool := (y % 4 == 0 && y % 100 != 0) || y % 400 == 0

/-- Number of days of month `m` in year `y`. -/
def daysInMonth (y m : Nat) : Nat :=
  if m = 2 then (if isLeap y then 29 else 28)
  else if m = 4 || m = 6 || m = 9 || m = 11 then 30 else 31

/-- Days from the civil epoch 1970-01-01 to the given date (the standard
era-based civil-calendar computation; positive years only here, the sources
emit four-digit years). -/
def dayNumber (dt : Date) : Int :=
  let y : Int := if dt.month ≤ 2 then (dt.year : Int) - 1 else (dt.year : Int)
  let m : Int := dt.month
  let d : Int := dt.day
  let era : Int := y / 400
  let yoe : Int := y - era * 400
  let doy : Int := (153 * (m + (if m > 2 then -3 else 9)) + 2) / 5 + d - 1
  let doe : Int := yoe * 365 + yoe / 4 - yoe / 100 + doy
  era * 146097 + doe - 719468

/-- Parse of the leading `MM/DD/YYYY` of a string, as `arrow.get(s,
'MM/DD/YYYY')` does in fetch_price (the era of arrow used here tolerates and
ignores trailing text such as the hour token).  Rejects out-of-range months
and days, as arrow does. -/
def parseMMDDYYYY (cs : List Char) : Option Date :=
  match cs with
  | m1 :: m2 :: '/' :: d1 :: d2 :: '/' :: y1 :: y2 :: y3 :: y4 :: _ =>
    if m1.isDigit && m2.isDigit && d1.isDigit && d2.isDigit &&
        y1.isDigit && y2.isDigit && y3.isDigit && y4.isDigit then
      let m := digitsToNat [m1, m2]
      let d := digitsToNat [d1, d2]
      let y := digitsToNat [y1, y2, y3, y4]
      if 1 ≤ m ∧ m ≤ 12 ∧ 1 ≤ d ∧ d ≤ daysInMonth y m then some ⟨m, d, y⟩ else none
    else none
  | _ => none

/-- Timezone-aware wall-clock instant: seconds since the Unix epoch of the
naive local reading, plus the attached IANA timezone name. -/
structure Instant where
  seconds : Int
  tz : String
deriving DecidableEq, Repr

/-- The fixed timezone of the Alberta source, `ab_timezone` in CA_AB.py. -/
def ab_timezone : String := "Canada/Mountain"

/-- Midnight of a date, in seconds since the epoch. -/
def midnightSeconds (dt : Date) : Int := 86400 * dayNumber dt

/-- Hour bucketing as inlined in fetch_price:
`arrow.get(text, 'MM/DD/YYYY').replace(hours=hour_index_1based - 1,
tzinfo=tz)` — parse the date at the start of `text`, then shift midnight by
the zero-based hour offset and attach the timezone. -/
def hour_bucket (dateText : String) (hourIndex1 : Int) (tz : String) : Option Instant :=
  (parseMMDDYYYY dateText.data).map
    (fun dt => ⟨midnightSeconds dt + 3600 * (hourIndex1 - 1), tz⟩)

/-- Python `s.split(' ')` (single-space separator, keeping empty fields). -/
def splitOnSpace (cs : List Char) : List (List Char) :=
  match cs with
  | [] => [[]]
  | ' ' :: r => [] :: splitOnSpace r
  | c :: r =>
    match splitOnSpace r with
    | h :: t => (c :: h) :: t
    | [] => [[c]]

/-- The instant of one price-table row label, per fetch_price:
`hours = int(rowIndex.split(' ')[1]) - 1` and
`arrow.get(rowIndex, 'MM/DD/YYYY').replace(hours=hours, tzinfo=ab_timezone)`.
Fails (Python IndexError / ValueError / ParserError) when the label has no
second field, the field is not an integer, or the date does not parse. -/
def labelInstant (label : String) : Option Instant :=
  match splitOnSpace label.data with
  | _ :: hourTok :: _ => (pyIntChars hourTok).bind (fun h => hour_bucket label h ab_timezone)
  | _ => none

/-- One element of the list returned by fetch_price. -/
structure PriceRecord where
  datetime : Instant
  countryCode : String
  currency : String
  source : String
  price : Dec
deriving DecidableEq, Repr

/-- The record fetch_price stores in `data[rowIndex]` for a numeric price row. -/
def priceRecordFor (country label : String) (q : Dec) : Option PriceRecord :=
  (labelInstant label).map (fun inst => ⟨inst, country, "CAD", "ets.aeso.ca", q⟩)

/-- Python dict assignment `data[k] = r` on an insertion-ordered association
list: overwrite in place if the key exists, else append. -/
def insertPrice (d : List (String × PriceRecord)) (k : String) (r : PriceRecord) :
    List (String × PriceRecord) :=
  match d with
  | [] => [(k, r)]
  | (k0, r0) :: t => if k0 = k then (k, r) :: t else (k0, r0) :: insertPrice t k r

/-- The row loop of fetch_price: for each `(rowIndex, price)` row, skip the
row when `isfloat(price)` is false, otherwise build the record (propagating
its failure, which aborts the whole call) and assign it to the dict. -/
def priceDataAux (country : String) (acc : List (String × PriceRecord)) :
    List (String × String) → Option (List (String × PriceRecord))
  | [] => some acc
  | row :: rest =>
    match pyFloat row.2 with
    | none => priceDataAux country acc rest
    | some q =>
      match priceRecordFor country row.1 q with
      | none => none
      | some r => priceDataAux country (insertPrice acc row.1 r) rest

/-- The `data` dict of fetch_price, built from the price table rows in source
order. -/
def priceData (country : String) (rows : List (String × String)) :
    Option (List (String × PriceRecord)) :=
  priceDataAux country [] rows

/-- Python `data[k]` on the association list (`none` for a missing key). -/
def lookupPrice (k : String) (d : List (String × PriceRecord)) : Option PriceRecord :=
  (d.find? (fun e => e.1 = k)).map Prod.snd

/-- Embedding of fetch_price of CA_AB.py on an already-extracted price table,
given as the list of `(rowIndex, price-cell)` rows in source order: build the
`data` dict keyed by row label, then return `[data[k] for k in
sorted(data.keys())]` — the values in lexicographic key order. -/
def fetch_price (country : String) (rows : List (String × String)) : Option (List PriceRecord) :=
  (priceData country rows).map
    (fun d => (List.insertionSort strLe (d.map Prod.fst)).filterMap (fun k => lookupPrice k d))

/-- The price cell of the last row carrying label `k` whose cell is numeric —
the row whose value survives in the fetch_price dict. -/
def lastNumeric (rows : List (String × String)) (k : String) : Option Dec :=
  match rows with
  | [] => none
  | row :: rest =>
    match lastNumeric rest k with
    | some q => some q
    | none => if row.1 = k then pyFloat row.2 else none

/-- Whether a record list is ascending in the instants of its records. -/
def instantsAscending : List PriceRecord → Bool
  | [] => true
  | [_] => true
  | a :: b :: t => decide (a.datetime.seconds ≤ b.datetime.seconds) && instantsAscending (b :: t)

/-- Month abbreviations recognised by strptime's `%b`, lower-cased. -/
def monthAbbrevs : List (List Char) :=
  [['j', 'a', 'n'], ['f', 'e', 'b'], ['m', 'a', 'r'], ['a', 'p', 'r'],
   ['m', 'a', 'y'], ['j', 'u', 'n'], ['j', 'u', 'l'], ['a', 'u', 'g'],
   ['s', 'e', 'p'], ['o', 'c', 't'], ['n', 'o', 'v'], ['d', 'e', 'c']]

/-- Month number of a three-letter abbreviation (case-insensitive, as
strptime's `%b` is). -/
def monthNum (a b c : Char) : Option Nat :=
  (monthAbbrevs.findIdx? (fun w => w == [a.toLower, b.toLower, c.toLower])).map (· + 1)

/-- Consume one-or-more whitespace characters, as a whitespace run in a
strptime format does. -/
def skipWs1 (cs : List Char) : Option (List Char) :=
  match cs with
  | c :: rest => if isWsC c then some (rest.dropWhile isWsC) else none
  | [] => none

/-- Consume one expected literal character. -/
def expectChar (c : Char) (cs : List Char) : Option (List Char) :=
  match cs with
  | c0 :: rest => if c0 = c then some rest else none
  | [] => none

/-- Consume one or two decimal digits (greedy), as strptime's `%d`/`%H`/`%M` do. -/
def take2Digits (cs : List Char) : Option (Nat × List Char) :=
  match cs with
  | a :: b :: r =>
    if a.isDigit then
      (if b.isDigit then some (digitsToNat [a, b], r) else some (digitVal a, b :: r))
    else none
  | [a] => if a.isDigit then some (digitVal a, []) else none
  | [] => none

/-- Consume exactly four decimal digits, as strptime's `%Y` does here. -/
def take4Digits (cs : List Char) : Option (Nat × List Char) :=
  match cs with
  | a :: b :: c :: d :: r =>
    if a.isDigit && b.isDigit && c.isDigit && d.isDigit then
      some (digitsToNat [a, b, c, d], r)
    else none
  | _ => none

/-- Model of `datetime.datetime.strptime(ts, ' %b %d, %Y %H:%M')` from
convert_time_str in CA_AB.py: leading whitespace, month abbreviation, day,
comma, year, hour and minute, consuming the whole string, with the
range checks strptime and the datetime constructor perform.  Returns the
seconds-since-epoch reading of the parsed naive local time. -/
def parseLastUpdate (cs : List Char) : Option Int := do
  let r1 ← skipWs1 cs
  let (m, r2) ←
    match r1 with
    | a :: b :: c :: r => (monthNum a b c).map (fun m => (m, r))
    | _ => none
  let r3 ← skipWs1 r2
  let (d, r4) ← take2Digits r3
  let r5 ← expectChar ',' r4
  let r6 ← skipWs1 r5
  let (y, r7) ← take4Digits r6
  let r8 ← skipWs1 r7
  let (h, r9) ← take2Digits r8
  let r10 ← expectChar ':' r9
  let (mi, r11) ← take2Digits r10
  if r11 = [] ∧ 1 ≤ d ∧ d ≤ daysInMonth y m ∧ h ≤ 23 ∧ mi ≤ 59 then
    some (86400 * dayNumber ⟨m, d, y⟩ + 3600 * (h : Int) + 60 * (mi : Int))
  else none

/-- Embedding of convert_time_str of CA_AB.py: strptime with format
`' %b %d, %Y %H:%M'`, then `pytz.timezone('Canada/Mountain').localize(...)`,
which attaches the zone to the naive reading. -/
def convert_time_str (ts : List Char) : Option Instant :=
  (parseLastUpdate ts).map (fun s => ⟨s, "Canada/Mountain"⟩)

/-- Python `s.split(':', 1)[1]`: the text after the first colon; `none` is
the IndexError raised when the string has no colon. -/
def afterFirstColon (cs : List Char) : Option (List Char) :=
  match cs with
  | [] => none
  | ':' :: r => some r
  | _ :: r => afterFirstColon r

/-- The parts of the CSD report page that fetch_production reads: the text of
the `Last Update : ...` cell, and the GENERATION table's TNG (total net
generation) and MC (maximum capability) columns, keyed by the row label. -/
structure GenPayload where
  lastUpdateCell : String
  tng : List (String × String)
  mc : List (String × String)
deriving DecidableEq, Repr

/-- Cell lookup in one extracted table column; `none` is pandas' KeyError. -/
def lookupCell (k : String) (t : List (String × String)) : Option String :=
  (t.find? (fun e => e.1 = k)).map Prod.snd

/-- A production or capacity mapping of fetch_production: the five canonical
fuel keys it always emits. -/
structure FuelMix where
  coal : Dec
  gas : Dec
  hydro : Dec
  wind : Dec
  unknown : Dec
deriving DecidableEq, Repr

/-- The dictionary returned by fetch_production. -/
structure ProductionRecord where
  datetime : Instant
  countryCode : String
  production : FuelMix
  capacity : FuelMix
  source : String
deriving DecidableEq, Repr

/-- Embedding of fetch_production of CA_AB.py on an already-extracted CSD
payload: parse the last-update time (text after the colon), then map the
fixed rows COAL/GAS/HYDRO/WIND/OTHER of the TNG and MC columns through plain
`float(...)` into the production and capacity mappings. -/
def fetch_production (country : String) (p : GenPayload) : Option ProductionRecord := do
  let ts ← afterFirstColon p.lastUpdateCell.data
  let dt ← convert_time_str ts
  let pcoal ← (lookupCell "COAL" p.tng).bind pyFloat
  let pgas ← (lookupCell "GAS" p.tng).bind pyFloat
  let phydro ← (lookupCell "HYDRO" p.tng).bind pyFloat
  let pwind ← (lookupCell "WIND" p.tng).bind pyFloat
  let pother ← (lookupCell "OTHER" p.tng).bind pyFloat
  let ccoal ← (lookupCell "COAL" p.mc).bind pyFloat
  let cgas ← (lookupCell "GAS" p.mc).bind pyFloat
  let chydro ← (lookupCell "HYDRO" p.mc).bind pyFloat
  let cwind ← (lookupCell "WIND" p.mc).bind pyFloat
  let cother ← (lookupCell "OTHER" p.mc).bind pyFloat
  pure ⟨dt, country, ⟨pcoal, pgas, phydro, pwind, pother⟩,
        ⟨ccoal, cgas, chydro, cwind, cother⟩, "ets.aeso.ca"⟩

/-- The INTERCHANGE table cells fetch_exchange reads: the flow cell for each
of the three neighbouring regions. -/
structure ExchangePayload where
  britishColumbia : String
  saskatchewan : String
  montana : String
deriving DecidableEq, Repr

/-- The two exception kinds fetch_exchange can raise: NotImplementedError for
an unsupported pair, ValueError from `float(...)` on a bad cell. -/
inductive ExchError where
  | notImplemented : ExchError
  | valueError : ExchError
deriving DecidableEq, Repr

/-- The dictionary returned by fetch_exchange. -/
structure ExchangeRecord where
  datetime : Instant
  sortedCountryCodes : String
  netFlow : Dec
  source : String
deriving DecidableEq, Repr

/-- The `flows` dict of fetch_exchange, keyed by sorted pair key. -/
def exchangeFlows (p : ExchangePayload) : List (String × String) :=
  [("CA-AB->CA-BC", p.britishColumbia),
   ("CA-AB->CA-SK", p.saskatchewan),
   ("CA-AB->US", p.montana)]

/-- Python `'->'.join(sorted([c1, c2]))`: the lexicographically sorted pair key. -/
def sortedKey (c1 c2 : String) : String :=
  if pyStrLe c1 c2 then c1 ++ "->" ++ c2 else c2 ++ "->" ++ c1

/-- Embedding of fetch_exchange of CA_AB.py on an already-extracted
INTERCHANGE payload.  `now` is the wall-clock reading that
`arrow.now(tz=ab_timezone)` returns at call time — an input of the ambient
environment, not of the payload. -/
def fetch_exchange (p : ExchangePayload) (c1 c2 : String) (now : Int) :
    Except ExchError ExchangeRecord :=
  match (exchangeFlows p).find? (fun e => e.1 = sortedKey c1 c2) with
  | none => .error .notImplemented
  | some e =>
    match pyFloat e.2 with
    | none => .error .valueError
    | some q => .ok ⟨⟨now, ab_timezone⟩, sortedKey c1 c2, q, "ets.aeso.ca"⟩

instance {ε α : Type} [DecidableEq ε] [DecidableEq α] : DecidableEq (Except ε α) := fun x y =>
  match x, y with
  | .error a, .error b =>
    if h : a = b then isTrue (h ▸ rfl) else isFalse (fun he => h (Except.error.inj he))
  | .error _, .ok _ => isFalse (fun he => Except.noConfusion he)
  | .ok _, .error _ => isFalse (fun he => Except.noConfusion he)
  | .ok a, .ok b =>
    if h : a = b then isTrue (h ▸ rfl) else isFalse (fun he => h (Except.ok.inj he))

/-- An exchange record with its datetime field erased, to compare the
payload-determined fields across clock readings. -/
def eraseDatetime (r : ExchangeRecord) : String × Dec × String :=
  (r.sortedCountryCodes, r.netFlow, r.source)

/-- The country code constant of SE.py. -/
def COUNTRY_CODE : String := "SE"

/-- The parts of the Statnett JSON feed that fetch_SE reads: the header
values (region codes) and the `value` fields of each metric array, plus the
`MeasuredAt` millisecond timestamp. -/
structure SEPayload where
  headers : List String
  measuredAt : Int
  consumptionData : List String
  thermalData : List String
  notSpecifiedData : List String
  windData : List String
  nuclearData : List String
  hydroData : List String
deriving DecidableEq, Repr

/-- The production mapping of fetch_SE. -/
structure SEProduction where
  other : Dec
  wind : Dec
  nuclear : Dec
  hydro : Dec
deriving DecidableEq, Repr

/-- The object returned by fetch_SE (the empty `exchange` dict carries no
data and is omitted). -/
structure SERecord where
  countryCode : String
  datetime : Instant
  consumptionOther : Dec
  production : SEProduction
deriving DecidableEq, Repr

/-- One metric value of the feed at column `i`, normalized:
`float(data[...][i]['value'].replace(u'\xa0', '').replace(' ', '').replace('-', '0'))`. -/
def seValue (arr : List String) (i : Nat) : Option Dec :=
  (arr.get? i).bind normalize_number

/-- Embedding of fetch_SE of SE.py on an already-decoded feed: locate the
column of `COUNTRY_CODE` in the headers (`list.index`, ValueError when
absent), convert `MeasuredAt` from milliseconds with Python floor division,
and normalize each metric value at that column; `production.other` is the sum
of the thermal and not-specified values. -/
def fetch_SE (d : SEPayload) : Option SERecord := do
  let i ← d.headers.findIdx? (fun h => h == COUNTRY_CODE)
  let cOther ← seValue d.consumptionData i
  let pThermal ← seValue d.thermalData i
  let pNotSpecified ← seValue d.notSpecifiedData i
  let pWind ← seValue d.windData i
  let pNuclear ← seValue d.nuclearData i
  let pHydro ← seValue d.hydroData i
  pure ⟨COUNTRY_CODE, ⟨(d.measuredAt).fdiv 1000, "Europe/Stockholm"⟩, cOther,
        ⟨Dec.add pThermal pNotSpecified, pWind, pNuclear, pHydro⟩⟩

theorem char_toNat_inj {a b : Char} (h : a.toNat = b.toNat) : a = b :=
  Char.eq_of_val_eq (UInt32.eq_of_toBitVec_eq (BitVec.eq_of_toNat_eq h))

theorem charListLe_antisymm : ∀ as bs : List Char,
    charListLe as bs = true → charListLe bs as = true → as = bs := by
  intro as
  induction as with
  | nil =>
    intro bs h1 _
    cases bs with
    | nil => rfl
    | cons b bs => simp [charListLe] at *
  | cons a as ih =>
    intro bs h1 h2
    cases bs with
    | nil => simp [charListLe] at h1
    | cons b bs =>
      by_cases hab : a.toNat = b.toNat
      · have hba : b.toNat = a.toNat := hab.symm
        simp only [charListLe, if_pos hab] at h1
        simp only [charListLe, if_pos hba] at h2
        rw [char_toNat_inj hab, ih bs h1 h2]
      · have hba : b.toNat ≠ a.toNat := fun e => hab e.symm
        simp only [charListLe, if_neg hab, decide_eq_true_eq] at h1
        simp only [charListLe, if_neg hba, decide_eq_true_eq] at h2
        omega

theorem pyStrLe_antisymm {s t : String} (h1 : pyStrLe s t = true) (h2 : pyStrLe t s = true) :
    s = t := by
  have hd : s.data = t.data := charListLe_antisymm s.data t.data h1 h2
  cases s with
  | mk l1 =>
    cases t with
    | mk l2 => exact congrArg String.mk hd

theorem sortedKey_comm (c1 c2 : String) : sortedKey c1 c2 = sortedKey c2 c1 := by
  unfold sortedKey
  by_cases h1 : pyStrLe c1 c2 = true <;> by_cases h2 : pyStrLe c2 c1 = true
  · rw [pyStrLe_antisymm h1 h2]
  · simp [h1, h2]
  · simp [h1, h2]
  · exfalso
    rcases charListLe_total c1.data c2.data with h | h
    · exact h1 h
    · exact h2 h

theorem pairwise_filterMap_rel {α β : Type} (f : α → Option β) (R : α → α → Prop)
    (P : β → β → Prop)
    (hf : ∀ a1 a2 b1 b2, R a1 a2 → f a1 = some b1 → f a2 = some b2 → P b1 b2) :
    ∀ l : List α, l.Pairwise R → (l.filterMap f).Pairwise P := by
  intro l
  induction l with
  | nil => intro _; simp
  | cons a t ih =>
    intro hp
    rw [List.pairwise_cons] at hp
    obtain ⟨ha, ht⟩ := hp
    cases hfa : f a with
    | none => simpa [List.filterMap_cons, hfa] using ih ht
    | some b =>
      simp only [List.filterMap_cons, hfa]
      rw [List.pairwise_cons]
      refine ⟨?_, ih ht⟩
      intro c hc
      obtain ⟨a2, ha2, hfa2⟩ := List.mem_filterMap.mp hc
      exact hf a a2 b c (ha a2 ha2) hfa hfa2

/-- C4: for every valid numeric string `s` free of separator characters, and
every string `t` that is `s` with plain-space or non-breaking-space thousands
separators inserted (removing the separator characters from `t` gives back
`s`), `normalize_number` returns the same value on `t` as on `s`.  This holds
for negative strings as well: the hyphen survives separator stripping on both
sides, so both calls mangle it identically (to the digit zero). -/
theorem normalize_number_separator_invariant (s t : String)
    (hvalid : (pyFloat s).isSome = true)
    (hnosep : ∀ c ∈ s.data, c ≠ ' ' ∧ c ≠ nbsp)
    (hins : (t.data.filter (fun c => c != nbsp)).filter (fun c => c != ' ') = s.data) :
    normalize_number t = normalize_number s := by
  unfold normalize_number
  rw [hins]
  have h1 : s.data.filter (fun c => c != nbsp) = s.data := by
    rw [List.filter_eq_self]
    intro a ha
    simpa using (hnosep a ha).2
  have h2 : s.data.filter (fun c => c != ' ') = s.data := by
    rw [List.filter_eq_self]
    intro a ha
    simpa using (hnosep a ha).1
  rw [h1, h2]

theorem normalize_number_separator_invariant_witness :
    normalize_number "-1  234" = normalize_number "-1234" :=
  normalize_number_separator_invariant "-1234" "-1  234"
    (by decide) (by decide) (by decide)

/-- C8: `normalize_number` maps the bare sentinel `"-"` to exactly zero, and
fails (Python `ValueError`, the spec's `ParseError`) on `"abc"`, whose cleaned
form is not a decimal number.  (It returns a numeric value in every non-error
case by its result type.) -/
theorem normalize_number_sentinel_and_parse_error :
    normalize_number "-" = some ⟨0, 0⟩ ∧ normalize_number "abc" = none := by decide

/-- C9: on a feed with headers `["SE", "NO"]`, `ThermalData = ["100", "200"]`
and `NotSpecifiedData = ["10", "20"]`, extracting region `"SE"` (column 0)
yields `production.other = 110.0`: the thermal and not-specified values at the
target region's column index are summed (N-to-1 aggregation). -/
theorem fetch_SE_other_aggregation :
    (fetch_SE ⟨["SE", "NO"], 1609459200000, ["5", "6"], ["100", "200"], ["10", "20"],
        ["1", "2"], ["3", "4"], ["7", "8"]⟩).map (fun r => r.production.other) =
      some ⟨110, 0⟩ := by decide

/-- C7: when the date text parses, `hour_bucket` at 1-based hour index 1 is
midnight of that date, at index 24 it is 23:00 of the same day, and in
general it is midnight plus `hour_index_1based - 1` hours, in the attached
timezone. -/
theorem hour_bucket_offsets (s : String) (dt : Date) (tz : String) (i : Int)
    (hp : parseMMDDYYYY s.data = some dt) (h1 : 1 ≤ i) (h24 : i ≤ 24) :
    hour_bucket s 1 tz = some ⟨midnightSeconds dt, tz⟩ ∧
    hour_bucket s 24 tz = some ⟨midnightSeconds dt + 23 * 3600, tz⟩ ∧
    hour_bucket s i tz = some ⟨midnightSeconds dt + (i - 1) * 3600, tz⟩ := by
  unfold hour_bucket
  rw [hp]
  refine ⟨?_, ?_, ?_⟩ <;>
    simp only [Option.map_some', Option.some.injEq, Instant.mk.injEq, and_true] <;> omega

theorem hour_bucket_offsets_witness :
    hour_bucket "01/01/2021" 1 "Canada/Mountain" =
      some ⟨midnightSeconds ⟨1, 1, 2021⟩, "Canada/Mountain"⟩ ∧
    hour_bucket "01/01/2021" 24 "Canada/Mountain" =
      some ⟨midnightSeconds ⟨1, 1, 2021⟩ + 23 * 3600, "Canada/Mountain"⟩ ∧
    hour_bucket "01/01/2021" 5 "Canada/Mountain" =
      some ⟨midnightSeconds ⟨1, 1, 2021⟩ + (5 - 1) * 3600, "Canada/Mountain"⟩ :=
  hour_bucket_offsets "01/01/2021" ⟨1, 1, 2021⟩ "Canada/Mountain" 5
    (by decide) (by decide) (by decide)

/-- C5: flow extraction is pair-symmetric and sign-preserving — swapping the
two region codes yields the identical record (same sorted key, same sign and
magnitude of netFlow), and the netFlow is exactly the float value of the
source cell stored under the sorted pair key, with no sign flip. -/
theorem fetch_exchange_pair_symmetric (p : ExchangePayload) (c1 c2 : String) (now : Int) :
    fetch_exchange p c1 c2 now = fetch_exchange p c2 c1 now ∧
    (fetch_exchange p c1 c2 now).toOption.map ExchangeRecord.netFlow =
      ((exchangeFlows p).find? (fun e => e.1 = sortedKey c1 c2)).bind
        (fun e => pyFloat e.2) := by
  constructor
  · unfold fetch_exchange
    rw [sortedKey_comm]
  · unfold fetch_exchange
    cases hf : (exchangeFlows p).find? (fun e => e.1 = sortedKey c1 c2) with
    | none => rfl
    | some e =>
      cases hq : pyFloat e.2 with
      | none => simp [hq, Except.toOption]
      | some q => simp [hq, Except.toOption]

/-- C6 counterexample: with the pair (CA-AB, CA-BC) — whose sorted key is
present in the flows table — and a payload whose British Columbia cell is the
non-numeric `"N/A"`, the call raises (ValueError from `float`), contradicting
the claim that a present sorted key never raises and returns a record. -/
theorem fetch_exchange_present_key_raises :
    fetch_exchange ⟨"N/A", "5", "10"⟩ "CA-AB" "CA-BC" 0 = .error .valueError ∧
    ((exchangeFlows ⟨"N/A", "5", "10"⟩).find?
      (fun e => e.1 = sortedKey "CA-AB" "CA-BC")).isSome = true := by decide

/-- C6 (amended): the call fails with `NotImplementedError` (the spec's
`UnsupportedPairError`) exactly when the sorted pair key is absent from the
flows table; when the key is present the call never raises that error — it
returns the record keyed by the sorted key if the flow cell parses as a
number, and raises a `ValueError` (the spec's `ParseError`) otherwise. -/
theorem fetch_exchange_unsupported_pair_iff (p : ExchangePayload) (c1 c2 : String) (now : Int) :
    (fetch_exchange p c1 c2 now = .error .notImplemented ↔
      (exchangeFlows p).find? (fun e => e.1 = sortedKey c1 c2) = none) ∧
    (∀ e, (exchangeFlows p).find? (fun e0 => e0.1 = sortedKey c1 c2) = some e →
      fetch_exchange p c1 c2 now =
        (pyFloat e.2).elim (.error .valueError)
          (fun q => .ok ⟨⟨now, ab_timezone⟩, sortedKey c1 c2, q, "ets.aeso.ca"⟩)) := by
  constructor
  · unfold fetch_exchange
    cases hf : (exchangeFlows p).find? (fun e => e.1 = sortedKey c1 c2) with
    | none => simp
    | some e =>
      cases hq : pyFloat e.2 with
      | none => simp [hq]
      | some q => simp [hq]
  · intro e he
    unfold fetch_exchange
    rw [he]
    cases hq : pyFloat e.2 with
    | none => simp [hq]
    | some q => simp [hq]

theorem fetch_exchange_unsupported_pair_iff_witness :
    (fetch_exchange ⟨"-25", "5", "10"⟩ "CA-AB" "CA-BC" 0 = .error .notImplemented ↔
      (exchangeFlows ⟨"-25", "5", "10"⟩).find?
        (fun e => e.1 = sortedKey "CA-AB" "CA-BC") = none) ∧
    fetch_exchange ⟨"-25", "5", "10"⟩ "CA-AB" "CA-BC" 0 =
      (pyFloat "-25").elim (.error .valueError)
        (fun q => .ok ⟨⟨0, ab_timezone⟩, sortedKey "CA-AB" "CA-BC", q, "ets.aeso.ca"⟩) :=
  ⟨(fetch_exchange_unsupported_pair_iff ⟨"-25", "5", "10"⟩ "CA-AB" "CA-BC" 0).1,
   (fetch_exchange_unsupported_pair_iff ⟨"-25", "5", "10"⟩ "CA-AB" "CA-BC" 0).2
     ("CA-AB->CA-BC", "-25") (by decide)⟩

/-- C3 counterexample: two runs of fetch_exchange on the identical payload
and pair return different records — the datetime field comes from
`arrow.now()`, the wall clock at call time, not from the payload. -/
theorem fetch_exchange_clock_dependent :
    fetch_exchange ⟨"-25", "5", "10"⟩ "CA-AB" "CA-BC" 0 ≠
      fetch_exchange ⟨"-25", "5", "10"⟩ "CA-AB" "CA-BC" 60 := by decide

/-- C3 (amended): fetch_production and fetch_price are pure functions of
their payload (their embeddings take no clock input); fetch_exchange is
deterministic given the payload and the clock, and depends on the clock only
through the datetime field: across two clock readings every other field
agrees, and on success the datetime is exactly the clock reading with the
source timezone attached. -/
theorem fetch_exchange_deterministic_modulo_clock (p : ExchangePayload) (c1 c2 : String)
    (n1 n2 : Int) :
    (fetch_exchange p c1 c2 n1).map eraseDatetime =
      (fetch_exchange p c1 c2 n2).map eraseDatetime ∧
    (fetch_exchange p c1 c2 n1).map (fun r => r.datetime) =
      (fetch_exchange p c1 c2 n1).map (fun _ => (⟨n1, ab_timezone⟩ : Instant)) := by
  unfold fetch_exchange
  cases hf : (exchangeFlows p).find? (fun e => e.1 = sortedKey c1 c2) with
  | none => exact ⟨rfl, rfl⟩
  | some e =>
    cases hq : pyFloat e.2 with
    | none => simp [hq, Except.map]
    | some q => simp [hq, Except.map, eraseDatetime]

/-- The generation table of claim C2: rows COAL, GAS, WIND with the cells
`"1 234"`, `"500"`, `"-"`. -/
def claimedGenTable : List (String × String) :=
  [("COAL", "1 234"), ("GAS", "500"), ("WIND", "-")]

/-- A CSD payload carrying the claim C2 table in both columns. -/
def claimedGenPayload : GenPayload :=
  ⟨"Last Update : Oct 12, 2026 14:05", claimedGenTable, claimedGenTable⟩

/-- A CSD payload with all five required rows and already-normalized numeric
cells. -/
def cleanGenPayload : GenPayload :=
  ⟨"Last Update : Oct 12, 2026 14:05",
   [("COAL", "1234"), ("GAS", "500"), ("HYDRO", "800"), ("WIND", "0"), ("OTHER", "95")],
   [("COAL", "1500"), ("GAS", "700"), ("HYDRO", "900"), ("WIND", "50"), ("OTHER", "100")]⟩

/-- C2 counterexample: on the claimed payload, fetch_production raises
instead of returning the claimed record — `float("1 234")` fails (no
thousands-separator stripping is performed) — so the extraction yields no
`ProductionRecord` at all. -/
theorem fetch_production_claimed_payload_fails :
    fetch_production "CA-AB" claimedGenPayload = none := by decide

/-- C2 (amended): fetch_production applies plain `float` with no separator
stripping and no `"-"`-to-zero sentinel (that normalization lives only in the
SE parser), and requires all five rows COAL/GAS/HYDRO/WIND/OTHER; the claimed
payload therefore fails with a parse error, while a payload with the
pre-normalized cells COAL=`"1234"`, GAS=`"500"`, WIND=`"0"` (plus HYDRO and
OTHER rows) yields a production mapping with coal = 1234.0, gas = 500.0,
wind = 0.0. -/
theorem fetch_production_plain_float_mapping :
    fetch_production "CA-AB" claimedGenPayload = none ∧
    (fetch_production "CA-AB" cleanGenPayload).map
      (fun r => (r.production.coal, r.production.gas, r.production.wind)) =
      some (⟨1234, 0⟩, ⟨500, 0⟩, ⟨0, 0⟩) := by decide

theorem lookupPrice_cons (k0 : String) (r0 : PriceRecord) (t : List (String × PriceRecord))
    (q : String) :
    lookupPrice q ((k0, r0) :: t) = if k0 = q then some r0 else lookupPrice q t := by
  by_cases h : k0 = q <;> simp [lookupPrice, List.find?, h]

theorem lookupPrice_insertPrice (d : List (String × PriceRecord)) (k q : String)
    (r : PriceRecord) :
    lookupPrice q (insertPrice d k r) = if k = q then some r else lookupPrice q d := by
  induction d with
  | nil =>
    show lookupPrice q [(k, r)] = _
    rw [lookupPrice_cons]
  | cons e t ih =>
    obtain ⟨k0, r0⟩ := e
    show lookupPrice q (if k0 = k then (k, r) :: t else (k0, r0) :: insertPrice t k r) = _
    by_cases h0 : k0 = k
    · rw [if_pos h0, lookupPrice_cons, lookupPrice_cons]
      subst h0
      by_cases hq : k0 = q
      · simp [hq]
      · simp [hq]
    · rw [if_neg h0, lookupPrice_cons, lookupPrice_cons, ih]
      by_cases hq0 : k0 = q
      · by_cases hq : k = q
        · exact absurd (hq.trans hq0.symm) (fun e => h0 e.symm)
        · simp [hq0, hq]
      · simp [hq0]

theorem lastNumeric_cons (row : String × String) (rest : List (String × String)) (k : String) :
    lastNumeric (row :: rest) k =
      match lastNumeric rest k with
      | some q => some q
      | none => if row.1 = k then pyFloat row.2 else none := rfl

theorem priceDataAux_cons_skip (country : String) (d0 : List (String × PriceRecord))
    (row : String × String) (rest : List (String × String)) (hq : pyFloat row.2 = none) :
    priceDataAux country d0 (row :: rest) = priceDataAux country d0 rest := by
  show (match pyFloat row.2 with
    | none => priceDataAux country d0 rest
    | some q =>
      match priceRecordFor country row.1 q with
      | none => none
      | some r => priceDataAux country (insertPrice d0 row.1 r) rest) =
    priceDataAux country d0 rest
  rw [hq]

theorem priceDataAux_cons_fail (country : String) (d0 : List (String × PriceRecord))
    (row : String × String) (rest : List (String × String)) (q : Dec)
    (hq : pyFloat row.2 = some q) (hr : priceRecordFor country row.1 q = none) :
    priceDataAux country d0 (row :: rest) = none := by
  show (match pyFloat row.2 with
    | none => priceDataAux country d0 rest
    | some q =>
      match priceRecordFor country row.1 q with
      | none => none
      | some r => priceDataAux country (insertPrice d0 row.1 r) rest) = none
  rw [hq]
  show (match priceRecordFor country row.1 q with
    | none => none
    | some r => priceDataAux country (insertPrice d0 row.1 r) rest) = none
  rw [hr]

theorem priceDataAux_cons_insert (country : String) (d0 : List (String × PriceRecord))
    (row : String × String) (rest : List (String × String)) (q : Dec) (r : PriceRecord)
    (hq : pyFloat row.2 = some q) (hr : priceRecordFor country row.1 q = some r) :
    priceDataAux country d0 (row :: rest) = priceDataAux country (insertPrice d0 row.1 r) rest := by
  show (match pyFloat row.2 with
    | none => priceDataAux country d0 rest
    | some q =>
      match priceRecordFor country row.1 q with
      | none => none
      | some r => priceDataAux country (insertPrice d0 row.1 r) rest) =
    priceDataAux country (insertPrice d0 row.1 r) rest
  rw [hq]
  show (match priceRecordFor country row.1 q with
    | none => none
    | some r => priceDataAux country (insertPrice d0 row.1 r) rest) =
    priceDataAux country (insertPrice d0 row.1 r) rest
  rw [hr]

theorem priceDataAux_lookup (country : String) :
    ∀ (rows : List (String × String)) (d0 d : List (String × PriceRecord)),
      priceDataAux country d0 rows = some d →
      ∀ k, lookupPrice k d =
        match lastNumeric rows k with
        | some q => priceRecordFor country k q
        | none => lookupPrice k d0 := by
  intro rows
  induction rows with
  | nil =>
    intro d0 d h k
    cases h
    rfl
  | cons row rest ih =>
    intro d0 d h k
    cases hq : pyFloat row.2 with
    | none =>
      rw [priceDataAux_cons_skip country d0 row rest hq] at h
      rw [ih d0 d h k]
      cases hl : lastNumeric rest k with
      | some q2 =>
        conv_rhs => rw [lastNumeric_cons]
        rw [hl]
      | none =>
        conv_rhs => rw [lastNumeric_cons]
        rw [hl]
        by_cases hk : row.1 = k <;> simp [hk, hq]
    | some q =>
      cases hr : priceRecordFor country row.1 q with
      | none =>
        rw [priceDataAux_cons_fail country d0 row rest q hq hr] at h
        exact Option.noConfusion h
      | some r =>
        rw [priceDataAux_cons_insert country d0 row rest q r hq hr] at h
        rw [ih _ d h k]
        cases hl : lastNumeric rest k with
        | some q2 =>
          conv_rhs => rw [lastNumeric_cons]
          rw [hl]
        | none =>
          conv_rhs => rw [lastNumeric_cons]
          rw [hl]
          rw [lookupPrice_insertPrice]
          by_cases hk : row.1 = k
          · rw [hk] at hr
            simp [hk, hq, hr]
          · simp [hk]

theorem priceData_lookup (country : String) (rows : List (String × String))
    (d : List (String × PriceRecord)) (hd : priceData country rows = some d) (k : String) :
    lookupPrice k d = (lastNumeric rows k).bind (fun q => priceRecordFor country k q) := by
  rw [priceDataAux_lookup country rows [] d hd k]
  cases lastNumeric rows k with
  | none => rfl
  | some q => rfl

theorem keys_insertPrice_subset (d : List (String × PriceRecord)) (k : String) (r : PriceRecord) :
    ∀ x ∈ (insertPrice d k r).map Prod.fst, x = k ∨ x ∈ d.map Prod.fst := by
  induction d with
  | nil =>
    intro x hx
    simp [insertPrice] at hx
    exact Or.inl hx
  | cons e t ih =>
    obtain ⟨k0, r0⟩ := e
    intro x hx
    by_cases h0 : k0 = k
    · simp only [insertPrice, if_pos h0, List.map_cons, List.mem_cons] at hx
      rcases hx with h | h
      · exact Or.inl h
      · exact Or.inr (by simp [h])
    · simp only [insertPrice, if_neg h0, List.map_cons, List.mem_cons] at hx
      rcases hx with h | h
      · exact Or.inr (by simp [h])
      · rcases ih x h with h2 | h2
        · exact Or.inl h2
        · exact Or.inr (by simp [h2])

theorem keys_insertPrice_nodup (d : List (String × PriceRecord)) (k : String) (r : PriceRecord)
    (h : (d.map Prod.fst).Nodup) : ((insertPrice d k r).map Prod.fst).Nodup := by
  induction d with
  | nil => simp [insertPrice]
  | cons e t ih =>
    obtain ⟨k0, r0⟩ := e
    simp only [List.map_cons, List.nodup_cons] at h
    obtain ⟨hnot, ht⟩ := h
    by_cases h0 : k0 = k
    · subst h0
      have he : insertPrice ((k0, r0) :: t) k0 r = (k0, r) :: t := by
        show (if k0 = k0 then (k0, r) :: t else (k0, r0) :: insertPrice t k0 r) = (k0, r) :: t
        rw [if_pos rfl]
      rw [he]
      simp only [List.map_cons, List.nodup_cons]
      exact ⟨hnot, ht⟩
    · simp only [insertPrice, if_neg h0, List.map_cons, List.nodup_cons]
      refine ⟨?_, ih ht⟩
      intro hx
      rcases keys_insertPrice_subset t k r k0 hx with h | h
      · exact h0 h
      · exact hnot h

theorem priceDataAux_keys_nodup (country : String) :
    ∀ (rows : List (String × String)) (d0 d : List (String × PriceRecord)),
      (d0.map Prod.fst).Nodup → priceDataAux country d0 rows = some d →
      (d.map Prod.fst).Nodup := by
  intro rows
  induction rows with
  | nil =>
    intro d0 d h0 h
    cases h
    exact h0
  | cons row rest ih =>
    intro d0 d h0 h
    cases hq : pyFloat row.2 with
    | none =>
      rw [priceDataAux_cons_skip country d0 row rest hq] at h
      exact ih d0 d h0 h
    | some q =>
      cases hr : priceRecordFor country row.1 q with
      | none =>
        rw [priceDataAux_cons_fail country d0 row rest q hq hr] at h
        exact Option.noConfusion h
      | some r =>
        rw [priceDataAux_cons_insert country d0 row rest q r hq hr] at h
        exact ih _ d (keys_insertPrice_nodup d0 row.1 r h0) h

theorem lookupPrice_mem (d : List (String × PriceRecord)) (k : String) (r : PriceRecord)
    (h : lookupPrice k d = some r) : (k, r) ∈ d := by
  induction d with
  | nil => simp [lookupPrice, List.find?] at h
  | cons e t ih =>
    obtain ⟨k0, r0⟩ := e
    rw [lookupPrice_cons] at h
    by_cases h0 : k0 = k
    · subst h0
      rw [if_pos rfl] at h
      injection h with hr
      subst hr
      exact List.mem_cons_self _ _
    · rw [if_neg h0] at h
      exact List.mem_cons_of_mem _ (ih h)

/-- C10 counterexample: with two rows sharing the label `"01/01/2021 1"`
where the later row's price cell `"N/A"` is non-numeric, fetch_price emits
one record whose price comes from the earlier row (25.50) — the last such
row did not overwrite, contradicting the claim that the price is taken from
the last row with that label. -/
theorem fetch_price_duplicate_last_row_does_not_win :
    fetch_price "CA-AB" [("01/01/2021 1", "25.50"), ("01/01/2021 1", "N/A")] =
      some [⟨⟨1609459200, "Canada/Mountain"⟩, "CA-AB", "CAD", "ets.aeso.ca", ⟨2550, 2⟩⟩] ∧
    pyFloat "N/A" = none ∧ pyFloat "25.50" = some ⟨2550, 2⟩ := by decide

/-- C10 (amended): the fetch_price dict holds at most one record per row
label (its keys are distinct), and the record stored under a label carries
the price of the last row with that label whose price cell is numeric —
later duplicate rows overwrite earlier ones only when their own price cell
parses; non-numeric duplicates are skipped and overwrite nothing. -/
theorem fetch_price_last_numeric_wins (country : String) (rows : List (String × String))
    (d : List (String × PriceRecord)) (hd : priceData country rows = some d) :
    (∀ k, lookupPrice k d = (lastNumeric rows k).bind (fun q => priceRecordFor country k q)) ∧
    (d.map Prod.fst).Nodup :=
  ⟨fun k => priceData_lookup country rows d hd k,
   priceDataAux_keys_nodup country rows [] d (by simp) hd⟩

theorem fetch_price_last_numeric_wins_witness :
    (lookupPrice "01/01/2021 1"
        [("01/01/2021 1", ⟨⟨1609459200, "Canada/Mountain"⟩, "CA-AB", "CAD", "ets.aeso.ca", ⟨25, 1⟩⟩)] =
      (lastNumeric [("01/01/2021 1", "1"), ("01/01/2021 1", "2.5")] "01/01/2021 1").bind
        (fun q => priceRecordFor "CA-AB" "01/01/2021 1" q)) ∧
    (([("01/01/2021 1",
        (⟨⟨1609459200, "Canada/Mountain"⟩, "CA-AB", "CAD", "ets.aeso.ca", ⟨25, 1⟩⟩ :
          PriceRecord))].map Prod.fst).Nodup) := by
  have h := fetch_price_last_numeric_wins "CA-AB"
    [("01/01/2021 1", "1"), ("01/01/2021 1", "2.5")]
    [("01/01/2021 1", ⟨⟨1609459200, "Canada/Mountain"⟩, "CA-AB", "CAD", "ets.aeso.ca", ⟨25, 1⟩⟩)]
    (by decide)
  exact ⟨h.1 _, h.2⟩

/-- C1 counterexample: a price table whose labels carry non-zero-padded hour
tokens — `"01/01/2021 2"` and `"01/01/2021 10"` — produces output sorted by
the label strings, putting hour 10 (09:00) before hour 2 (01:00): the
returned sequence is not ascending in the records' instants. -/
theorem fetch_price_not_instant_sorted :
    (fetch_price "CA-AB" [("01/01/2021 2", "25.50"), ("01/01/2021 10", "30.00")]).map
      instantsAscending = some false := by decide

/-- C1 (amended): fetch_price returns the records in ascending lexicographic
order of their row-label strings (Python `sorted` on the dict keys),
regardless of source row order; this is ascending by instant exactly when the
lexicographic order of the labels present agrees with their chronological
order (e.g. zero-padded hour tokens), which the source's unpadded hour labels
violate. -/
theorem fetch_price_sorted_when_label_order_chronological (country : String)
    (rows : List (String × String)) (d : List (String × PriceRecord)) (l : List PriceRecord)
    (hd : priceData country rows = some d)
    (hmono : ∀ p1 ∈ d, ∀ p2 ∈ d, strLe p1.1 p2.1 →
      p1.2.datetime.seconds ≤ p2.2.datetime.seconds)
    (hl : fetch_price country rows = some l) :
    l.Pairwise (fun a b => a.datetime.seconds ≤ b.datetime.seconds) := by
  unfold fetch_price at hl
  rw [hd] at hl
  simp only [Option.map_some', Option.some.injEq] at hl
  subst hl
  refine pairwise_filterMap_rel (fun k => lookupPrice k d) strLe _ ?_ _ ?_
  · intro k1 k2 r1 r2 hR h1 h2
    exact hmono (k1, r1) (lookupPrice_mem d k1 r1 h1) (k2, r2) (lookupPrice_mem d k2 r2 h2) hR
  · exact List.sorted_insertionSort strLe (d.map Prod.fst)

theorem fetch_price_sorted_witness :
    List.Pairwise (fun a b : PriceRecord => a.datetime.seconds ≤ b.datetime.seconds)
      [⟨⟨1609459200, "Canada/Mountain"⟩, "CA-AB", "CAD", "ets.aeso.ca", ⟨2550, 2⟩⟩,
       ⟨⟨1609466400, "Canada/Mountain"⟩, "CA-AB", "CAD", "ets.aeso.ca", ⟨10, 0⟩⟩] :=
  fetch_price_sorted_when_label_order_chronological "CA-AB"
    [("01/01/2021 3", "10"), ("01/01/2021 1", "25.50")]
    [("01/01/2021 3", ⟨⟨1609466400, "Canada/Mountain"⟩, "CA-AB", "CAD", "ets.aeso.ca", ⟨10, 0⟩⟩),
     ("01/01/2021 1", ⟨⟨1609459200, "Canada/Mountain"⟩, "CA-AB", "CAD", "ets.aeso.ca", ⟨2550, 2⟩⟩)]
    _ (by decide) (by decide) (by decide)

